import Mathlib

/-!
# Verification of the ALSA volume-widget event bridge (`src/widgets/volume.rs`)

This file is a shallow embedding of the event-bridge core of the repository:

* `AlsaEvented` — the registrar wrapping an ALSA `Mixer`, with its
  `fds`, `register`, `reregister` and `deregister` operations
  (`impl Evented for AlsaEvented`, volume.rs lines 122–174);
* `AlsaEventStream` — the two-phase notification-stream state machine
  (`impl Stream for AlsaEventStream`, volume.rs lines 176–227).

External collaborators (the mio/tokio reactor and the ALSA library) are
modelled by their observable behaviour: per-descriptor reactor calls are
functions returning `Except IoError Unit`, and the ALSA probe/drain calls
are fields of a `DrainEnv` record returning `Except ResourceError _`.
Each operation additionally returns the trace of collaborator calls it
made, so that call-count and call-order properties can be stated.
-/

/-- OS file-descriptor identifier (`RawFd` is `i32`; only identity matters). -/
abbrev Fd := Int

/-- ALSA-library failure (`alsa::Error`); only identity matters. -/
abbrev ResourceError := Nat

/-- Reactor registration failure (`io::Error`); only identity matters. -/
abbrev IoError := Nat

/-- One entry of the `Vec<pollfd>` returned by `PollDescriptors::get()`:
a descriptor plus its event mask.  The source keeps only the `fd` field
(`.map(|pollfd| pollfd.fd)`). -/
structure Pollfd where
  fd : Fd
  events : Int
deriving DecidableEq

/-- Result of `AlsaEvented::fds` (volume.rs 129–136).  The source calls
`self.0.get().unwrap()`: on an enumeration error it panics instead of
returning the error, which `panicked` records; `returned` is the normal
result `Vec<RawFd>`. -/
inductive FdsResult where
  | panicked (e : ResourceError)
  | returned (fds : List Fd)
deriving DecidableEq

/-- The registrar `struct AlsaEvented(Mixer)` (volume.rs 122).  The wrapped
`Mixer` is opaque; the only thing the registrar code observes of it is the
result of `self.0.get()` (its poll-descriptor enumeration), so the model
carries exactly that. -/
structure AlsaEvented where
  get : Except ResourceError (List Pollfd)

/-- `AlsaEvented::fds` (volume.rs 129–136):
`self.0.get().unwrap().iter().map(|pollfd| pollfd.fd).collect()`.
The `.unwrap()` panics on `Err`, modelled by `FdsResult.panicked`. -/
def AlsaEvented.fds (a : AlsaEvented) : FdsResult :=
  match a.get with
  | Except.ok pollfds => FdsResult.returned (pollfds.map Pollfd.fd)
  | Except.error e => FdsResult.panicked e

/-- One call made by the registrar to the reactor: either
`EventedFd(fd).register/reregister(poll, token, interest, opts)` (recorded
with the arguments passed) or `EventedFd(fd).deregister(poll)`.
`Token`, `Ready` and `PollOpt` are opaque; `Nat` stands for each. -/
inductive ReactorCall where
  | reg (fd : Fd) (token : Nat) (interest : Nat) (opts : Nat)
  | dereg (fd : Fd)
deriving DecidableEq

/-- The loop body shared by `Evented::register` and `Evented::reregister`
(volume.rs 147–150 and 160–163):
`for fd in &self.fds() { EventedFd(fd).register(poll, token, interest, opts)? }`.
`regFd fd token interest opts` is the reactor's response to one per-descriptor
call.  Returns the calls made (in order) and the propagated result; the `?`
stops the loop at the first error. -/
def regLoop (regFd : Fd → Nat → Nat → Nat → Except IoError Unit)
    (token interest opts : Nat) : List Fd → List ReactorCall × Except IoError Unit
  | [] => ([], Except.ok ())
  | fd :: rest =>
    match regFd fd token interest opts with
    | Except.error e => ([ReactorCall.reg fd token interest opts], Except.error e)
    | Except.ok _ =>
      (ReactorCall.reg fd token interest opts :: (regLoop regFd token interest opts rest).1,
       (regLoop regFd token interest opts rest).2)

/-- `Evented::register` for `AlsaEvented` (volume.rs 140–151): enumerate the
descriptor set via `fds` (panicking, hence `Option`, if enumeration fails),
then register each descriptor with the same `token`/`interest`/`opts`,
stopping at the first error. -/
def AlsaEvented.register (a : AlsaEvented)
    (regFd : Fd → Nat → Nat → Nat → Except IoError Unit)
    (token interest opts : Nat) : Option (List ReactorCall × Except IoError Unit) :=
  match a.fds with
  | FdsResult.panicked _ => none
  | FdsResult.returned l => some (regLoop regFd token interest opts l)

/-- `Evented::reregister` for `AlsaEvented` (volume.rs 153–164): identical
loop to `register`, calling the reactor's reregister per descriptor. -/
def AlsaEvented.reregister (a : AlsaEvented)
    (reregFd : Fd → Nat → Nat → Nat → Except IoError Unit)
    (token interest opts : Nat) : Option (List ReactorCall × Except IoError Unit) :=
  match a.fds with
  | FdsResult.panicked _ => none
  | FdsResult.returned l => some (regLoop reregFd token interest opts l)

/-- The loop of `Evented::deregister` (volume.rs 169–172):
`for fd in &self.fds() { EventedFd(fd).deregister(poll)? }`.
The `?` propagates the first error immediately, skipping the rest. -/
def deregLoop (deregFd : Fd → Except IoError Unit) :
    List Fd → List ReactorCall × Except IoError Unit
  | [] => ([], Except.ok ())
  | fd :: rest =>
    match deregFd fd with
    | Except.error e => ([ReactorCall.dereg fd], Except.error e)
    | Except.ok _ =>
      (ReactorCall.dereg fd :: (deregLoop deregFd rest).1, (deregLoop deregFd rest).2)

/-- `Evented::deregister` for `AlsaEvented` (volume.rs 166–173). -/
def AlsaEvented.deregister (a : AlsaEvented) (deregFd : Fd → Except IoError Unit) :
    Option (List ReactorCall × Except IoError Unit) :=
  match a.fds with
  | FdsResult.panicked _ => none
  | FdsResult.returned l => some (deregLoop deregFd l)

/-- `struct AlsaEventStream` (volume.rs 176–179).  The `PollEvented` handle
is reactor-owned state modelled externally; the stream's own mutable state
is exactly the `initial: bool` flag (`true` = the spec's `InitialDrain`
phase, `false` = `Steady`). -/
structure AlsaEventStream where
  initial : Bool
deriving DecidableEq

/-- `AlsaEventStream::new` (volume.rs 182–190): a freshly constructed stream
has `initial: true`.  (`PollEvented::new` performs the initial registration,
modelled by `AlsaEvented.register`.) -/
def AlsaEventStream.new : AlsaEventStream :=
  { initial := true }

/-- One collaborator call made during `AlsaEventStream::poll`:
`probe t` is `alsa::poll::poll_all(&[mixer], t)` (line 216, with the
timeout argument recorded); `drain fd` is the
`poll_descriptor.get()?` / `mixer.revents(..)?` pair for one pending
descriptor (line 219); `rearm` is `self.poll.need_read()` (line 223). -/
inductive PollAction where
  | probe (timeoutMs : Nat)
  | drain (fd : Fd)
  | rearm
deriving DecidableEq

/-- The ALSA-side collaborators consulted during one `poll` call:
`pollAll` is the result of `alsa::poll::poll_all(&[mixer], 0)`, as the
list of pending descriptors; `descGet` is `poll_descriptor.get()` for a
pending descriptor; `revents` is `mixer.revents(slice)`. -/
structure DrainEnv where
  pollAll : Except ResourceError (List Fd)
  descGet : Fd → Except ResourceError (List Pollfd)
  revents : List Pollfd → Except ResourceError Unit

/-- Draining one pending descriptor (volume.rs 219):
`mixer.revents(poll_descriptor.get()?.as_slice())?` — a `get` followed by
a `revents`, either of which may fail. -/
def drainOne (env : DrainEnv) (fd : Fd) : Except ResourceError Unit :=
  match env.descGet fd with
  | Except.error e => Except.error e
  | Except.ok s => env.revents s

/-- The drain loop of `poll` (volume.rs 217–220): drain each pending
descriptor in order, recording a `drain` action per descriptor processed;
the `?` stops at the first error. -/
def drainLoop (env : DrainEnv) : List Fd → List PollAction × Except ResourceError Unit
  | [] => ([], Except.ok ())
  | fd :: rest =>
    match drainOne env fd with
    | Except.error e => ([PollAction.drain fd], Except.error e)
    | Except.ok _ =>
      (PollAction.drain fd :: (drainLoop env rest).1, (drainLoop env rest).2)

/-- Result of one `poll` call, `Poll<Option<()>, Error>`:
`notReady` is `Ok(Async::NotReady)`, `ready item` is `Ok(Async::Ready(item))`
(so `ready none` would be end-of-stream), `error e` is `Err(e)`. -/
inductive PollResult where
  | notReady
  | ready (item : Option Unit)
  | error (e : ResourceError)
deriving DecidableEq

/-- Everything one `poll` call produces: the updated stream state, the trace
of ALSA/reactor calls made, and the returned value. -/
structure PollOutcome where
  state : AlsaEventStream
  trace : List PollAction
  result : PollResult
deriving DecidableEq

/-- `AlsaEventStream::poll` (volume.rs 201–226).  `readReady` is what
`self.poll.poll_read()` would report (`true` = `Async::Ready`); it is
consulted only when `initial` is `false`.  Mirrors the source line by line:

1. if `!self.initial` and `poll_read()` is `NotReady`, return `NotReady`
   (lines 204–208) — state untouched, no collaborator called;
2. `self.initial = false` (line 209);
3. `alsa::poll::poll_all(&[mixer], 0)?` (line 216);
4. drain every pending descriptor (lines 217–220);
5. `self.poll.need_read()` (line 223);
6. return `Ok(Async::Ready(Some(())))` (line 225). -/
def pollStep (s : AlsaEventStream) (readReady : Bool) (env : DrainEnv) : PollOutcome :=
  if !s.initial && !readReady then
    { state := s, trace := [], result := PollResult.notReady }
  else
    match env.pollAll with
    | Except.error e =>
      { state := { initial := false }, trace := [PollAction.probe 0], result := PollResult.error e }
    | Except.ok pending =>
      match drainLoop env pending with
      | (acts, Except.error e) =>
        { state := { initial := false }, trace := PollAction.probe 0 :: acts,
          result := PollResult.error e }
      | (acts, Except.ok _) =>
        { state := { initial := false }, trace := PollAction.probe 0 :: (acts ++ [PollAction.rearm]),
          result := PollResult.ready (some ()) }

/-! ## Helper lemmas about the loops and the poll step -/

/-- When every pending descriptor drains successfully, the drain loop visits
each of them in order and succeeds. -/
theorem drainLoop_ok (env : DrainEnv) (l : List Fd)
    (h : ∀ fd ∈ l, drainOne env fd = Except.ok ()) :
    drainLoop env l = (l.map PollAction.drain, Except.ok ()) := by
  induction l with
  | nil => rfl
  | cons fd rest ih =>
    have h1 : drainOne env fd = Except.ok () := h fd (List.mem_cons_self fd rest)
    have h2 : ∀ x ∈ rest, drainOne env x = Except.ok () :=
      fun x hx => h x (List.mem_cons_of_mem fd hx)
    simp [drainLoop, h1, ih h2]

/-- Every action recorded by the drain loop is a `drain`. -/
theorem drainLoop_trace_drains (env : DrainEnv) (l : List Fd) :
    ∀ a ∈ (drainLoop env l).1, ∃ fd, a = PollAction.drain fd := by
  induction l with
  | nil => intro a ha; cases ha
  | cons fd rest ih =>
    intro a ha
    by_cases hd : ∃ e, drainOne env fd = Except.error e
    · obtain ⟨e, he⟩ := hd
      simp [drainLoop, he] at ha
      exact ⟨fd, ha⟩
    · have he : drainOne env fd = Except.ok () := by
        cases hv : drainOne env fd with
        | error e => exact absurd ⟨e, hv⟩ hd
        | ok u => cases u; rfl
      simp [drainLoop, he] at ha
      rcases ha with rfl | ha
      · exact ⟨fd, rfl⟩
      · exact ih a ha

/-- When the reactor accepts every per-descriptor registration, the loop makes
one `reg` call per descriptor, in order, all with the same arguments. -/
theorem regLoop_ok (regFd : Fd → Nat → Nat → Nat → Except IoError Unit)
    (token interest opts : Nat) (l : List Fd)
    (h : ∀ fd ∈ l, regFd fd token interest opts = Except.ok ()) :
    regLoop regFd token interest opts l =
      (l.map (fun fd => ReactorCall.reg fd token interest opts), Except.ok ()) := by
  induction l with
  | nil => rfl
  | cons fd rest ih =>
    have h1 : regFd fd token interest opts = Except.ok () := h fd (List.mem_cons_self fd rest)
    have h2 : ∀ x ∈ rest, regFd x token interest opts = Except.ok () :=
      fun x hx => h x (List.mem_cons_of_mem fd hx)
    simp [regLoop, h1, ih h2]

/-- When the first failing descriptor is `fd`, the registration loop attempts
exactly the descriptors up to and including `fd` and propagates that error,
never touching the remainder. -/
theorem regLoop_error (regFd : Fd → Nat → Nat → Nat → Except IoError Unit)
    (token interest opts : Nat) (l1 : List Fd) (fd : Fd) (l2 : List Fd) (e : IoError)
    (h1 : ∀ x ∈ l1, regFd x token interest opts = Except.ok ())
    (h2 : regFd fd token interest opts = Except.error e) :
    regLoop regFd token interest opts (l1 ++ fd :: l2) =
      (l1.map (fun x => ReactorCall.reg x token interest opts) ++
         [ReactorCall.reg fd token interest opts], Except.error e) := by
  induction l1 with
  | nil => simp [regLoop, h2]
  | cons x rest ih =>
    have hx : regFd x token interest opts = Except.ok () := h1 x (List.mem_cons_self x rest)
    have hr : ∀ y ∈ rest, regFd y token interest opts = Except.ok () :=
      fun y hy => h1 y (List.mem_cons_of_mem x hy)
    simp [regLoop, hx, ih hr]

/-- When the reactor accepts every per-descriptor deregistration, the loop
makes one `dereg` call per descriptor, in order, and succeeds. -/
theorem deregLoop_ok (deregFd : Fd → Except IoError Unit) (l : List Fd)
    (h : ∀ fd ∈ l, deregFd fd = Except.ok ()) :
    deregLoop deregFd l = (l.map ReactorCall.dereg, Except.ok ()) := by
  induction l with
  | nil => rfl
  | cons fd rest ih =>
    have h1 : deregFd fd = Except.ok () := h fd (List.mem_cons_self fd rest)
    have h2 : ∀ x ∈ rest, deregFd x = Except.ok () :=
      fun x hx => h x (List.mem_cons_of_mem fd hx)
    simp [deregLoop, h1, ih h2]

/-- When the first failing descriptor is `fd`, the deregistration loop
attempts exactly the descriptors up to and including `fd` and propagates that
error, never touching the remainder. -/
theorem deregLoop_error (deregFd : Fd → Except IoError Unit)
    (l1 : List Fd) (fd : Fd) (l2 : List Fd) (e : IoError)
    (h1 : ∀ x ∈ l1, deregFd x = Except.ok ())
    (h2 : deregFd fd = Except.error e) :
    deregLoop deregFd (l1 ++ fd :: l2) =
      (l1.map ReactorCall.dereg ++ [ReactorCall.dereg fd], Except.error e) := by
  induction l1 with
  | nil => simp [deregLoop, h2]
  | cons x rest ih =>
    have hx : deregFd x = Except.ok () := h1 x (List.mem_cons_self x rest)
    have hr : ∀ y ∈ rest, deregFd y = Except.ok () :=
      fun y hy => h1 y (List.mem_cons_of_mem x hy)
    simp [deregLoop, hx, ih hr]

/-- The suspend branch of `poll` (volume.rs 204–208): in the steady phase with
the reactor not ready, the call returns `NotReady` having touched nothing. -/
theorem pollStep_suspend (s : AlsaEventStream) (r : Bool) (env : DrainEnv)
    (hc : (!s.initial && !r) = true) :
    pollStep s r env = { state := s, trace := [], result := PollResult.notReady } := by
  simp [pollStep, hc]

/-- Whenever the drain path is taken, the stream state afterwards is
`initial := false` (volume.rs 209 runs before any fallible call). -/
theorem pollStep_state_of_run (s : AlsaEventStream) (r : Bool) (env : DrainEnv)
    (hc : (!s.initial && !r) = false) :
    (pollStep s r env).state = { initial := false } := by
  unfold pollStep
  rw [hc]
  simp only [Bool.false_eq_true, if_false]
  cases env.pollAll with
  | error e => rfl
  | ok pending =>
    cases hdl : drainLoop env pending with
    | mk acts rr => cases rr <;> simp [hdl]

/-- The successful drain path of `poll`: probe succeeds and every pending
descriptor drains, so the call probes once with a zero timeout, drains each
pending descriptor in order, re-arms, transitions to steady, and yields one
event. -/
theorem pollStep_run_ok (s : AlsaEventStream) (r : Bool) (env : DrainEnv) (pending : List Fd)
    (hc : (!s.initial && !r) = false)
    (hp : env.pollAll = Except.ok pending)
    (hd : ∀ fd ∈ pending, drainOne env fd = Except.ok ()) :
    pollStep s r env =
      { state := { initial := false },
        trace := PollAction.probe 0 :: (pending.map PollAction.drain ++ [PollAction.rearm]),
        result := PollResult.ready (some ()) } := by
  simp [pollStep, hc, hp, drainLoop_ok env pending hd]

/-- A poll call that yields an event took the drain path with a successful
probe and drain loop; its trace is probe, then the drain-loop actions, then
the re-arm. -/
theorem pollStep_ready_shape (s : AlsaEventStream) (r : Bool) (env : DrainEnv)
    (h : (pollStep s r env).result = PollResult.ready (some ())) :
    ∃ pending, env.pollAll = Except.ok pending ∧
      (drainLoop env pending).2 = Except.ok () ∧
      (pollStep s r env).trace =
        PollAction.probe 0 :: ((drainLoop env pending).1 ++ [PollAction.rearm]) := by
  by_cases hc : (!s.initial && !r) = true
  · rw [pollStep_suspend s r env hc] at h
    exact PollResult.noConfusion h
  · have hc' : (!s.initial && !r) = false := by
      cases hb : (!s.initial && !r) with
      | true => exact absurd hb hc
      | false => rfl
    unfold pollStep at h ⊢
    rw [hc'] at h ⊢
    simp only [Bool.false_eq_true, if_false] at h ⊢
    cases hp : env.pollAll with
    | error e =>
      simp only [hp] at h
      exact PollResult.noConfusion h
    | ok pending =>
      simp only [hp] at h ⊢
      cases hdl : drainLoop env pending with
      | mk acts rr =>
        cases rr with
        | error e =>
          simp only [hdl] at h
          exact PollResult.noConfusion h
        | ok u =>
          cases u
          refine ⟨pending, rfl, by rw [hdl], ?_⟩
          rw [hdl]

/-- A poll call's returned value is `NotReady`, an error, or the single
event `Ready(Some(()))` — nothing else. -/
theorem pollStep_result_cases (s : AlsaEventStream) (r : Bool) (env : DrainEnv) :
    (pollStep s r env).result = PollResult.notReady ∨
    (∃ e, (pollStep s r env).result = PollResult.error e) ∨
    (pollStep s r env).result = PollResult.ready (some ()) := by
  unfold pollStep
  split
  · exact Or.inl rfl
  · split
    · exact Or.inr (Or.inl ⟨_, rfl⟩)
    · split
      · exact Or.inr (Or.inl ⟨_, rfl⟩)
      · exact Or.inr (Or.inr rfl)

/-- A poll call never returns `Ready(None)`: the stream has no normal
end-of-stream. -/
theorem pollStep_never_none (s : AlsaEventStream) (r : Bool) (env : DrainEnv) :
    (pollStep s r env).result ≠ PollResult.ready none := by
  unfold pollStep
  split
  · exact fun h => PollResult.noConfusion h
  · split
    · exact fun h => PollResult.noConfusion h
    · split
      · exact fun h => PollResult.noConfusion h
      · exact fun h => Option.noConfusion (PollResult.ready.inj h)

/-! ## Claim theorems -/

/-- C1 (Initial-drain law): for a freshly constructed stream (phase
`InitialDrain`, i.e. `initial = true`), the first `poll` yields
`Ready(Some(()))` whenever probe and the drains succeed, and its whole
outcome is independent of what the reactor reports (`readReady` vs
`readReady'`): the readiness check is skipped entirely and the drain cycle
runs unconditionally. -/
theorem initial_drain_law (readReady readReady' : Bool) (env : DrainEnv)
    (pending : List Fd) (hp : env.pollAll = Except.ok pending)
    (hd : ∀ fd ∈ pending, drainOne env fd = Except.ok ()) :
    (pollStep AlsaEventStream.new readReady env).result = PollResult.ready (some ()) ∧
    pollStep AlsaEventStream.new readReady env =
      pollStep AlsaEventStream.new readReady' env := by
  have hc : ∀ b : Bool, (!AlsaEventStream.new.initial && !b) = false := fun b => rfl
  constructor
  · rw [pollStep_run_ok AlsaEventStream.new readReady env pending (hc readReady) hp hd]
  · rw [pollStep_run_ok AlsaEventStream.new readReady env pending (hc readReady) hp hd,
      pollStep_run_ok AlsaEventStream.new readReady' env pending (hc readReady') hp hd]

/-- C1 witness: a fake reactor that reports NotReady and a resource with an
empty pending set still produce one event on the first poll. -/
theorem initial_drain_law_witness :
    (pollStep AlsaEventStream.new false
        { pollAll := Except.ok [], descGet := fun _ => Except.ok [],
          revents := fun _ => Except.ok () }).result = PollResult.ready (some ()) :=
  (initial_drain_law false true
      { pollAll := Except.ok [], descGet := fun _ => Except.ok [],
        revents := fun _ => Except.ok () } [] rfl
      (fun fd hfd => absurd hfd (List.not_mem_nil fd))).1

/-- C2 counterexample: the claim "once probe or drain returns an error, no
subsequent call on the same instance produces a NotificationEvent" is false.
Concretely: the first poll's probe errors (result `Err(1)`), yet the very
next poll on the resulting stream state — with the reactor ready and probe
now succeeding — produces `Ready(Some(()))`.  The code keeps no
terminated-with-error state. -/
theorem termination_law_counterexample :
    ((pollStep AlsaEventStream.new false
        { pollAll := Except.error 1, descGet := fun _ => Except.ok [],
          revents := fun _ => Except.ok () }).result = PollResult.error 1) ∧
    ((pollStep
        (pollStep AlsaEventStream.new false
          { pollAll := Except.error 1, descGet := fun _ => Except.ok [],
            revents := fun _ => Except.ok () }).state
        true
        { pollAll := Except.ok [], descGet := fun _ => Except.ok [],
          revents := fun _ => Except.ok () }).result = PollResult.ready (some ())) :=
  ⟨rfl, rfl⟩

/-- C2 as amended: an errored poll yields the error (not an event) and leaves
the stream in the steady phase with no record of the failure; consequently a
subsequent poll whose probe and drains succeed produces a
`NotificationEvent` again.  Permanent termination after an error is a
contract imposed on the caller, not enforced by the stream. -/
theorem termination_not_permanent (s : AlsaEventStream) (r : Bool) (env : DrainEnv)
    (e : ResourceError) (h : (pollStep s r env).result = PollResult.error e) :
    (pollStep s r env).state = { initial := false } ∧
    ∀ (env' : DrainEnv) (pending : List Fd), env'.pollAll = Except.ok pending →
      (∀ fd ∈ pending, drainOne env' fd = Except.ok ()) →
      (pollStep (pollStep s r env).state true env').result = PollResult.ready (some ()) := by
  have hc : (!s.initial && !r) = false := by
    cases hb : (!s.initial && !r) with
    | true =>
      rw [pollStep_suspend s r env hb] at h
      exact PollResult.noConfusion h
    | false => rfl
  have hstate : (pollStep s r env).state = { initial := false } :=
    pollStep_state_of_run s r env hc
  refine ⟨hstate, fun env' pending hp hd => ?_⟩
  rw [hstate, pollStep_run_ok { initial := false } true env' pending rfl hp hd]

/-- C2 witness: instantiating the amended law at a probe failure on a fresh
stream shows the stream lands in the steady phase with nothing else
recorded. -/
theorem termination_not_permanent_witness :
    (pollStep AlsaEventStream.new true
        { pollAll := Except.error 3, descGet := fun _ => Except.ok [],
          revents := fun _ => Except.ok () }).state = { initial := false } :=
  (termination_not_permanent AlsaEventStream.new true
      { pollAll := Except.error 3, descGet := fun _ => Except.ok [],
        revents := fun _ => Except.ok () } 3 rfl).1

/-- C3 counterexample: the claim that `deregister` is best-effort (an error
on one descriptor does not prevent attempting the rest, the first error
being returned after all are attempted) is false.  With descriptor set
`[1, 2]` and a reactor that fails deregistration of `1` but would accept
`2`, the loop makes only the one call for `1` and returns its error; `2` is
never attempted (the source loop uses `?`, propagating immediately). -/
theorem deregister_best_effort_counterexample :
    (AlsaEvented.deregister
        { get := Except.ok [{ fd := 1, events := 0 }, { fd := 2, events := 0 }] }
        (fun fd => if fd = 1 then Except.error 5 else Except.ok ())
      = some ([ReactorCall.dereg 1], Except.error 5)) ∧
    ((fun fd => if fd = 1 then Except.error 5 else Except.ok ()) (2 : Fd)
      = (Except.ok () : Except IoError Unit)) :=
  ⟨rfl, rfl⟩

/-- C3 as amended: `deregister` iterates the current descriptor set in order
making at most one attempt per descriptor, but it is fail-fast, not
best-effort: on success every descriptor is attempted exactly once; on the
first failing descriptor the error is propagated immediately and the
remaining descriptors are not attempted. -/
theorem deregister_fail_fast (deregFd : Fd → Except IoError Unit) (ps : List Pollfd) :
    ((∀ fd ∈ ps.map Pollfd.fd, deregFd fd = Except.ok ()) →
      AlsaEvented.deregister { get := Except.ok ps } deregFd
        = some ((ps.map Pollfd.fd).map ReactorCall.dereg, Except.ok ())) ∧
    (∀ (l1 : List Fd) (fd : Fd) (l2 : List Fd) (e : IoError),
      ps.map Pollfd.fd = l1 ++ fd :: l2 →
      (∀ x ∈ l1, deregFd x = Except.ok ()) →
      deregFd fd = Except.error e →
      AlsaEvented.deregister { get := Except.ok ps } deregFd
        = some (l1.map ReactorCall.dereg ++ [ReactorCall.dereg fd], Except.error e)) := by
  constructor
  · intro h
    show some (deregLoop deregFd (ps.map Pollfd.fd)) = _
    rw [deregLoop_ok deregFd (ps.map Pollfd.fd) h]
  · intro l1 fd l2 e hsplit h1 h2
    show some (deregLoop deregFd (ps.map Pollfd.fd)) = _
    rw [hsplit, deregLoop_error deregFd l1 fd l2 e h1 h2]

/-- C3 witness: descriptor set `[1, 2]` with `2` the first failure — `1` is
deregistered, then the error on `2` is propagated. -/
theorem deregister_fail_fast_witness :
    AlsaEvented.deregister
        { get := Except.ok [{ fd := 1, events := 0 }, { fd := 2, events := 0 }] }
        (fun fd => if fd = 2 then Except.error 7 else Except.ok ())
      = some ([ReactorCall.dereg 1, ReactorCall.dereg 2], Except.error 7) :=
  (deregister_fail_fast (fun fd => if fd = 2 then Except.error 7 else Except.ok ())
      [{ fd := 1, events := 0 }, { fd := 2, events := 0 }]).2
    [1] 2 [] 7 rfl
    (fun x hx => by rcases List.mem_singleton.mp hx with rfl; rfl) rfl

/-- C4 (Register fail-fast and descriptor-count law): `register` attempts
each descriptor of the enumerated set in order.  If every per-descriptor
registration succeeds, a set of K descriptors causes exactly K reactor
register calls, in set order, all with the same token/interest/opts.  If a
descriptor fails, the error propagates immediately: exactly the descriptors
up to and including the failing one are attempted, none after it, and no
deregister call is ever made (no rollback — the call list consists of `reg`
entries only).  `reregister` behaves identically to `register`. -/
theorem register_fail_fast (regFd : Fd → Nat → Nat → Nat → Except IoError Unit)
    (token interest opts : Nat) (ps : List Pollfd) :
    ((∀ fd ∈ ps.map Pollfd.fd, regFd fd token interest opts = Except.ok ()) →
      AlsaEvented.register { get := Except.ok ps } regFd token interest opts
        = some ((ps.map Pollfd.fd).map (fun fd => ReactorCall.reg fd token interest opts),
            Except.ok ()) ∧
      ((ps.map Pollfd.fd).map (fun fd => ReactorCall.reg fd token interest opts)).length
        = ps.length) ∧
    (∀ (l1 : List Fd) (fd : Fd) (l2 : List Fd) (e : IoError),
      ps.map Pollfd.fd = l1 ++ fd :: l2 →
      (∀ x ∈ l1, regFd x token interest opts = Except.ok ()) →
      regFd fd token interest opts = Except.error e →
      AlsaEvented.register { get := Except.ok ps } regFd token interest opts
        = some (l1.map (fun x => ReactorCall.reg x token interest opts) ++
            [ReactorCall.reg fd token interest opts], Except.error e)) ∧
    AlsaEvented.reregister { get := Except.ok ps } regFd token interest opts
      = AlsaEvented.register { get := Except.ok ps } regFd token interest opts := by
  refine ⟨fun h => ⟨?_, by simp⟩, fun l1 fd l2 e hsplit h1 h2 => ?_, rfl⟩
  · show some (regLoop regFd token interest opts (ps.map Pollfd.fd)) = _
    rw [regLoop_ok regFd token interest opts (ps.map Pollfd.fd) h]
  · show some (regLoop regFd token interest opts (ps.map Pollfd.fd)) = _
    rw [hsplit, regLoop_error regFd token interest opts l1 fd l2 e h1 h2]

/-- C4 witness: a two-descriptor set `[3, 4]` registered with token 9,
interest 2, opts 1 on an accepting reactor makes exactly the two register
calls, in order, with those arguments. -/
theorem register_fail_fast_witness :
    AlsaEvented.register
        { get := Except.ok [{ fd := 3, events := 0 }, { fd := 4, events := 0 }] }
        (fun _ _ _ _ => Except.ok ()) 9 2 1
      = some ([ReactorCall.reg 3 9 2 1, ReactorCall.reg 4 9 2 1], Except.ok ()) :=
  ((register_fail_fast (fun _ _ _ _ => Except.ok ()) 9 2 1
      [{ fd := 3, events := 0 }, { fd := 4, events := 0 }]).1
    (fun _ _ => rfl)).1

/-- C5 (Phase-transition invariant): the `initial` flag (the `InitialDrain`
phase) is `true` at construction; any poll that yields an event leaves the
stream in the steady phase; and once the flag is `false` (`Steady`), no poll
call — suspending, failing or succeeding — ever sets it back to `true`. -/
theorem phase_transition_invariant :
    AlsaEventStream.new.initial = true ∧
    (∀ (s : AlsaEventStream) (r : Bool) (env : DrainEnv),
      (pollStep s r env).result = PollResult.ready (some ()) →
      (pollStep s r env).state.initial = false) ∧
    (∀ (s : AlsaEventStream) (r : Bool) (env : DrainEnv),
      s.initial = false → (pollStep s r env).state.initial = false) := by
  refine ⟨rfl, fun s r env h => ?_, fun s r env h => ?_⟩
  · cases hc : (!s.initial && !r) with
    | true =>
      rw [pollStep_suspend s r env hc] at h
      exact PollResult.noConfusion h
    | false =>
      rw [pollStep_state_of_run s r env hc]
  · cases hc : (!s.initial && !r) with
    | true => rw [pollStep_suspend s r env hc]; exact h
    | false => rw [pollStep_state_of_run s r env hc]

/-- C5 witness: a steady-phase stream polled while the reactor is not ready
stays in the steady phase. -/
theorem phase_transition_invariant_witness :
    (pollStep { initial := false } false
        { pollAll := Except.ok [], descGet := fun _ => Except.ok [],
          revents := fun _ => Except.ok () }).state.initial = false :=
  phase_transition_invariant.2.2 { initial := false } false
    { pollAll := Except.ok [], descGet := fun _ => Except.ok [],
      revents := fun _ => Except.ok () } rfl

/-- C6 (Re-arm law): every poll call that yields an event made exactly one
re-arm call (`need_read`), and it is the last collaborator call of the
trace — after the probe and after every drain of the cycle, before the call
returns. -/
theorem rearm_law (s : AlsaEventStream) (r : Bool) (env : DrainEnv)
    (h : (pollStep s r env).result = PollResult.ready (some ())) :
    ∃ ds : List PollAction,
      (pollStep s r env).trace = PollAction.probe 0 :: (ds ++ [PollAction.rearm]) ∧
      ∀ a ∈ ds, ∃ fd, a = PollAction.drain fd := by
  obtain ⟨pending, hp, hok, htrace⟩ := pollStep_ready_shape s r env h
  exact ⟨(drainLoop env pending).1, htrace, drainLoop_trace_drains env pending⟩

/-- C6 witness: a steady ready poll with one pending descriptor re-arms
exactly once, after the drain. -/
theorem rearm_law_witness :
    ∃ ds : List PollAction,
      (pollStep { initial := false } true
          { pollAll := Except.ok [5], descGet := fun _ => Except.ok [],
            revents := fun _ => Except.ok () }).trace
        = PollAction.probe 0 :: (ds ++ [PollAction.rearm]) ∧
      ∀ a ∈ ds, ∃ fd, a = PollAction.drain fd :=
  rearm_law { initial := false } true
    { pollAll := Except.ok [5], descGet := fun _ => Except.ok [],
      revents := fun _ => Except.ok () } rfl

/-- C7 (Coalescing law): a poll call never signals end-of-stream
(`Ready(None)`), and any call that neither suspends nor errors yields
exactly the single zero-payload event `Ready(Some(()))` — however many
descriptors were pending. -/
theorem coalescing_law (s : AlsaEventStream) (r : Bool) (env : DrainEnv) :
    (pollStep s r env).result ≠ PollResult.ready none ∧
    ((pollStep s r env).result ≠ PollResult.notReady →
      (∀ e, (pollStep s r env).result ≠ PollResult.error e) →
      (pollStep s r env).result = PollResult.ready (some ())) := by
  refine ⟨pollStep_never_none s r env, fun h1 h2 => ?_⟩
  rcases pollStep_result_cases s r env with h | ⟨e, h⟩ | h
  · exact absurd h h1
  · exact absurd h (h2 e)
  · exact h

/-- C7 witness: three pending descriptors still coalesce into the one event
of that poll call. -/
theorem coalescing_law_witness :
    (pollStep { initial := false } true
        { pollAll := Except.ok [1, 2, 3], descGet := fun _ => Except.ok [],
          revents := fun _ => Except.ok () }).result = PollResult.ready (some ()) :=
  (coalescing_law { initial := false } true
      { pollAll := Except.ok [1, 2, 3], descGet := fun _ => Except.ok [],
        revents := fun _ => Except.ok () }).2
    (fun h => PollResult.noConfusion h) (fun _ h => PollResult.noConfusion h)

/-- C8 (Drain-cycle mechanics): whenever a drain cycle runs — in the
initial-drain phase, or in the steady phase with the reactor ready — and the
cycle's calls succeed, the trace is exactly one probe with a zero timeout,
followed by exactly one drain per descriptor probe reported pending (zero
drains when none are pending), followed by the re-arm. -/
theorem drain_cycle_mechanics (s : AlsaEventStream) (r : Bool) (env : DrainEnv)
    (pending : List Fd)
    (hcycle : s.initial = true ∨ r = true)
    (hp : env.pollAll = Except.ok pending)
    (hd : ∀ fd ∈ pending, drainOne env fd = Except.ok ()) :
    (pollStep s r env).trace =
      PollAction.probe 0 :: (pending.map PollAction.drain ++ [PollAction.rearm]) := by
  have hc : (!s.initial && !r) = false := by
    rcases hcycle with h | h <;> rw [h] <;> simp
  rw [pollStep_run_ok s r env pending hc hp hd]

/-- C8 witness: an initial-phase poll with an empty pending set probes once
with timeout 0, performs zero drain calls, and re-arms. -/
theorem drain_cycle_mechanics_witness :
    (pollStep AlsaEventStream.new false
        { pollAll := Except.ok [], descGet := fun _ => Except.ok [],
          revents := fun _ => Except.ok () }).trace
      = [PollAction.probe 0, PollAction.rearm] :=
  drain_cycle_mechanics AlsaEventStream.new false
    { pollAll := Except.ok [], descGet := fun _ => Except.ok [],
      revents := fun _ => Except.ok () } [] (Or.inl rfl) rfl
    (fun fd hfd => absurd hfd (List.not_mem_nil fd))

/-- C9 (Suspension frame condition): a steady-phase poll with the reactor
not ready returns `NotReady` with an empty collaborator trace — no probe, no
drain, no re-arm — and the stream state exactly as before the call. -/
theorem suspension_frame (s : AlsaEventStream) (env : DrainEnv)
    (h : s.initial = false) :
    pollStep s false env = { state := s, trace := [], result := PollResult.notReady } :=
  pollStep_suspend s false env (by rw [h]; rfl)

/-- C9 witness: the suspension frame condition at a concrete steady stream. -/
theorem suspension_frame_witness :
    pollStep { initial := false } false
        { pollAll := Except.ok [], descGet := fun _ => Except.ok [],
          revents := fun _ => Except.ok () }
      = { state := { initial := false }, trace := [], result := PollResult.notReady } :=
  suspension_frame { initial := false }
    { pollAll := Except.ok [], descGet := fun _ => Except.ok [],
      revents := fun _ => Except.ok () } rfl

/-- C10 counterexample: the claim that a descriptor-enumeration failure is
surfaced to the caller as a `ResourceError` is false: `fds` calls
`self.0.get().unwrap()`, so with `get()` failing (here with error 7) the
call panics — `FdsResult.panicked 7` — rather than returning the error; in
particular it is not the case that `fds` never panics. -/
theorem descriptor_error_counterexample :
    (AlsaEvented.fds { get := Except.error 7 } = FdsResult.panicked 7) ∧
    ¬ ∀ (a : AlsaEvented) (e : ResourceError), AlsaEvented.fds a ≠ FdsResult.panicked e :=
  ⟨rfl, fun h => h { get := Except.error 7 } 7 rfl⟩

/-- C10 as amended: when the underlying handle cannot enumerate its
descriptors, `fds()` panics via `unwrap` instead of returning the
`ResourceError`, and `register`/`reregister`/`deregister`, which call it
first, therefore also panic (modelled as `none`) rather than returning any
error value to the caller. -/
theorem fds_panics_on_error (e : ResourceError)
    (regFd : Fd → Nat → Nat → Nat → Except IoError Unit)
    (deregFd : Fd → Except IoError Unit) (token interest opts : Nat) :
    AlsaEvented.fds { get := Except.error e } = FdsResult.panicked e ∧
    AlsaEvented.register { get := Except.error e } regFd token interest opts = none ∧
    AlsaEvented.reregister { get := Except.error e } regFd token interest opts = none ∧
    AlsaEvented.deregister { get := Except.error e } deregFd = none :=
  ⟨rfl, rfl, rfl, rfl⟩
